import Mathlib

/-!
Shallow embedding of the step-capture pipeline of the bug-capturer browser
extension (`src/background.js`, `src/word-report-generator.js`,
`src/unnamed/part_000`), together with theorems settling the frozen claims
about it.

Conventions of the embedding:
* JS numbers holding timestamps and coordinates are modelled as `Int`
  (`Math.abs` becomes `Int.natAbs`); array lengths and string lengths as `Nat`.
* JS strings are Lean `String`s; a possibly-`undefined` string field is
  `Option String` (`none` = `undefined`, and `===` on two `undefined`s is
  `true`, matching `Option.beq`).
* Fallible asynchronous platform calls (storage writes, image decoding and
  encoding) are modelled by explicit outcome parameters (`Except`/`Option`
  valued), so every definition stays executable.
-/

/-- One recorded step, as the objects pushed into the `bc_steps_master`
array in `src/background.js` (`addStep`).  Fields used by the dedup,
retention and rendering code: `time`, `url`, `selector`, `text`, `type`,
`meta.action`, `meta.value` and the optional screenshot `dataURL`. -/
structure Step where
  time : Int
  url : String
  selector : String
  text : String
  type : String
  metaAction : Option String
  metaValue : Option String
  dataURL : Option String
deriving Repr, DecidableEq

/-- `MAX_STEPS = 1000` from `src/background.js`. -/
def MAX_STEPS : Nat := 1000

/-- `MAX_STORAGE_SIZE = 50 * 1024 * 1024` from `src/background.js`. -/
def MAX_STORAGE_SIZE : Nat := 50 * 1024 * 1024

/-- First dedup rule of `addStep` (`src/background.js` lines 181-188):
`timeDiff <= 100 && step.selector === newStep.selector && step.text ===
newStep.text && step.meta?.action === newStep.meta?.action &&
step.meta?.value === newStep.meta?.value`. -/
def exactDup (step newStep : Step) : Bool :=
  decide ((step.time - newStep.time).natAbs ≤ 100) &&
    step.selector == newStep.selector &&
    step.text == newStep.text &&
    step.metaAction == newStep.metaAction &&
    step.metaValue == newStep.metaValue

/-- Second dedup rule of `addStep` (`src/background.js` lines 190-196):
`timeDiff <= 25 && step.selector === newStep.selector &&
step.meta?.action === newStep.meta?.action && step.meta?.action === 'click'`. -/
def rapidClickDup (step newStep : Step) : Bool :=
  decide ((step.time - newStep.time).natAbs ≤ 25) &&
    step.selector == newStep.selector &&
    step.metaAction == newStep.metaAction &&
    step.metaAction == some "click"

/-- The body of the `steps.some(step => ...)` callback in `addStep`
(`src/background.js` lines 178-209), in source order: the two positive
rules fire first; the `submit` and `screenshot` branches return `false`
(as does the final fall-through), so they never make a pair a duplicate —
but they also cannot exempt a pair already caught by the first rule. -/
def isDupPair (step newStep : Step) : Bool :=
  if exactDup step newStep then true
  else if rapidClickDup step newStep then true
  else if step.metaAction == some "submit" && newStep.metaAction == some "submit" then false
  else if step.type == "screenshot" && newStep.type == "screenshot" then false
  else false

/-- `steps.some(step => ...)` over the current log (`src/background.js`
line 178). -/
def isDuplicate (steps : List Step) (newStep : Step) : Bool :=
  steps.any (fun s => isDupPair s newStep)

/-- `getStoredSteps` (`src/background.js` lines 16-34): if more than
`MAX_STEPS` entries are stored, keep only the latest `MAX_STEPS`
(`steps.slice(-MAX_STEPS)`). -/
def getStoredStepsPure (stored : List Step) : List Step :=
  if stored.length > MAX_STEPS then stored.drop (stored.length - MAX_STEPS) else stored

/-- Fuel-indexed version of the trimming `while` loop in `storeSteps`
(`src/background.js` lines 47-50): while the serialized size exceeds
`MAX_STORAGE_SIZE` and more than 10 entries remain, drop the oldest 10%
(`slice(Math.floor(length * 0.1))`).  `size` stands for
`JSON.stringify(steps).length`.  Each iteration with a true guard drops at
least one element (the length is `> 10`), so fuel `steps.length` is enough. -/
def trimToSizeFuel (size : List Step → Nat) : Nat → List Step → List Step
  | 0, steps => steps
  | fuel + 1, steps =>
    if size steps > MAX_STORAGE_SIZE ∧ steps.length > 10 then
      trimToSizeFuel size fuel (steps.drop (steps.length / 10))
    else steps

/-- The trimming loop of `storeSteps`, run with sufficient fuel. -/
def trimToSize (size : List Step → Nat) (steps : List Step) : List Step :=
  trimToSizeFuel size steps.length steps

/-- `a.isPrefixOf b` on character lists, spelled out. -/
def leadsWith : List Char → List Char → Bool
  | [], _ => true
  | _ :: _, [] => false
  | a :: as, b :: bs => a == b && leadsWith as bs

/-- Substring search on character lists. -/
def infixAux (needle : List Char) : List Char → Bool
  | [] => leadsWith needle []
  | c :: t => leadsWith needle (c :: t) || infixAux needle t

/-- JS `hay.includes(needle)` / regex literal-alternative matching:
`needle` occurs contiguously in `hay`. -/
def containsSubStr (hay needle : String) : Bool :=
  infixAux needle.data hay.data

/-- ASCII lower-casing of one character (what `toLowerCase` and the `/i`
regex flag do on the ASCII inputs exercised here). -/
def lcChar (c : Char) : Char :=
  if 65 ≤ c.toNat ∧ c.toNat ≤ 90 then Char.ofNat (c.toNat + 32) else c

/-- JS `s.toLowerCase()` (ASCII range). -/
def strToLower (s : String) : String := ⟨s.data.map lcChar⟩

/-- JS `s.trim()`: strip whitespace from both ends. -/
def strTrim (s : String) : String :=
  ⟨((s.data.dropWhile Char.isWhitespace).reverse.dropWhile Char.isWhitespace).reverse⟩

/-- JS `s.slice(0, n)`. -/
def strTake (s : String) (n : Nat) : String := ⟨s.data.take n⟩

/-- Outcome of one `storeSteps` call: the arguments of the
`chrome.storage.local.set` calls issued, whether `clearSteps` wiped the
whole stored log, and the `{ ok, error }` result returned to the caller. -/
structure StoreOutcome where
  attempts : List (List Step)
  removedAll : Bool
  ok : Bool
  errMsg : Option String
deriving Repr, DecidableEq

/-- `storeSteps` (`src/background.js` lines 39-66).  `write` models the
single `chrome.storage.local.set` call.  On a write error whose message
contains `QUOTA_EXCEEDED`, the code calls `clearSteps()` (removing the
whole stored array) and returns `{ ok: false, error }`; there is no retry
of the write in the source. -/
def storeStepsExec (size : List Step → Nat) (write : List Step → Except String Unit)
    (steps : List Step) : StoreOutcome :=
  let trimmed := trimToSize size steps
  match write trimmed with
  | Except.ok _ => ⟨[trimmed], false, true, none⟩
  | Except.error m => ⟨[trimmed], containsSubStr m "QUOTA_EXCEEDED", false, some m⟩

/-- Environment supplying the outcomes of the platform calls made by
`compressScreenshot` (`src/background.js` lines 71-151): the
`performance.memory` high-water check, the `fetch`/`blob`/
`createImageBitmap` decode (with the bitmap's dimensions on success, and
covering an `OffscreenCanvas` allocation failure), the `getContext('2d')`
call, the `canvas.convertToBlob` encode (with the re-encoded data URL the
`FileReader` would deliver on success), and whether the final
`FileReader.readAsDataURL` round-trip succeeds.  The floating-point
resize arithmetic (lines 93-111) only shapes the encoded pixels, never
the control flow, so it is absorbed into `encodeResult`. -/
structure CodecEnv where
  memHigh : Bool
  decodeResult : Option (Nat × Nat)
  ctxOk : Bool
  encodeResult : Option String
  readerOk : Bool
deriving Repr, DecidableEq

/-- `compressScreenshot` (`src/background.js` lines 71-151).  The
estimated decoded size is `dataURL.length * 0.75`; `0.75 * n > 50MB` is
the exact rational inequality `3 * n > 4 * 50MB`.  Every failure inside
the `try` block is caught and yields the original `dataURL` — except a
failure of the `FileReader` in the final conversion: the function does
`return new Promise(...)` **inside** the `try`, and in an async function
a rejection of a returned promise is adopted after the `try` scope has
exited, so it is NOT caught by this `catch`; it surfaces as a rejection
to the caller (`addStep` catches it at lines 168-174 and deletes the
image).  `Except.error` models that uncaught rejection. -/
def compressScreenshot (env : CodecEnv) (dataURL : String) : Except String String :=
  if env.memHigh then Except.ok dataURL
  else if 3 * dataURL.length > 4 * MAX_STORAGE_SIZE then Except.ok dataURL
  else
    match env.decodeResult with
    | none => Except.ok dataURL
    | some _ =>
      if !env.ctxOk then Except.ok dataURL
      else
        match env.encodeResult with
        | none => Except.ok dataURL
        | some compressed =>
          if env.readerOk then Except.ok compressed
          else Except.error "Failed to convert compressed image to data URL"

/-- The screenshot-compression stanza of `addStep` (`src/background.js`
lines 166-174): when the step carries a `dataURL`, replace it with the
compressed result; when `compressScreenshot` rejects, `delete
newStep.dataURL`. -/
def compressedStep (env : CodecEnv) (s : Step) : Step :=
  match s.dataURL with
  | none => s
  | some u =>
    match compressScreenshot env u with
    | Except.ok c => { s with dataURL := some c }
    | Except.error _ => { s with dataURL := none }

/-- `addStep` (`src/background.js` lines 157-224), up to the point where
the resulting array is handed to `storeSteps`: load (cap-trimmed) stored
steps, `shift()` the oldest when already at `MAX_STEPS`, compress the
incoming screenshot, drop the new step when `isDuplicate`, otherwise
`push` it and `splice` down to the last 1000; finally `storeSteps`
applies its byte-size trim before writing.  The returned list is the
array stored by `chrome.storage.local.set`. -/
def addStepResult (size : List Step → Nat) (env : CodecEnv)
    (stored : List Step) (newStep : Step) : List Step :=
  let steps := getStoredStepsPure stored
  let steps := if steps.length ≥ MAX_STEPS then steps.drop 1 else steps
  let fresh := compressedStep env newStep
  if isDuplicate steps fresh then trimToSize size steps
  else
    let steps := steps ++ [fresh]
    let steps := if steps.length > 1000 then steps.drop (steps.length - 1000) else steps
    trimToSize size steps

/-- The log `addStep` actually checks the new step against: the stored
array after `getStoredSteps`' cap trim and after the `shift()` of the
oldest entry when the log is full. -/
def prepLog (stored : List Step) : List Step :=
  if (getStoredStepsPure stored).length ≥ MAX_STEPS then (getStoredStepsPure stored).drop 1
  else getStoredStepsPure stored

/-- Sequential driver for the end-to-end retention scenario: append
steps `f 1, f 2, ..., f n` one at a time through `addStepResult`,
starting from the empty stored log. -/
def appendAll (size : List Step → Nat) (env : CodecEnv) (f : Nat → Step) : Nat → List Step
  | 0 => []
  | n + 1 => addStepResult size env (appendAll size env f n) (f (n + 1))

/-- The DOM-element fields read by `getSafeText` and `getCssSelector` in
the content script (`src/word-report-generator.js` lines 933-959).  A JS
field that is absent/`undefined`/empty is the empty string — both are
falsy for the `||` chains the source uses, so `""` models them faithfully.
`etype` stands for `element.type`. -/
structure Elem where
  value : String
  innerText : String
  textContent : String
  alt : String
  title : String
  name : String
  id : String
  placeholder : String
  etype : String
  tagName : String
deriving Repr, DecidableEq

/-- JS `a || b` on strings (empty string is the only falsy string). -/
def jsOr (a b : String) : String :=
  if a == "" then b else a

/-- JS truthiness of a possibly-`undefined`/`null` string. -/
def jsTruthy : Option String → Bool
  | none => false
  | some s => !(s == "")

/-- `SENSITIVE_PATTERNS = /password|pwd|secret|token|key|ssn|creditcard|
credit-card|cardnumber|card-number/i` (`src/word-report-generator.js`
line 927): the regex matches iff one of the fixed keywords occurs,
case-insensitively, anywhere in the tested string. -/
def sensitiveTest (s : String) : Bool :=
  ["password", "pwd", "secret", "token", "key", "ssn",
   "creditcard", "credit-card", "cardnumber", "card-number"].any
    (fun k => containsSubStr (strToLower s) k)

/-- `const name = element.name || element.id || element.placeholder ||
element.type || ''` (`src/word-report-generator.js` line 937). -/
def fieldIdent (e : Elem) : String :=
  jsOr e.name (jsOr e.id (jsOr e.placeholder e.etype))

/-- `const text = value || element.value || element.innerText ||
element.textContent || element.alt || element.title || ''`
(`src/word-report-generator.js` line 936). -/
def textOf (e : Elem) (v : Option String) : String :=
  jsOr (v.getD "") (jsOr e.value (jsOr e.innerText (jsOr e.textContent (jsOr e.alt e.title))))

/-- `const identifier = element.placeholder || element.name || element.id
|| element.type || 'field'` (`src/word-report-generator.js` line 946). -/
def formIdent (e : Elem) : String :=
  jsOr e.placeholder (jsOr e.name (jsOr e.id (jsOr e.etype "field")))

/-- `['INPUT', 'SELECT', 'TEXTAREA'].includes(element.tagName)`. -/
def isFormTag (t : String) : Bool :=
  t == "INPUT" || t == "SELECT" || t == "TEXTAREA"

/-- `getSafeText` (`src/word-report-generator.js` lines 933-959) for a
present element.  `MAX_INPUT_LENGTH = 100`; JS `slice(0, n)` is
`String.take n`, and `.length` agrees with `String.length` on the
ASCII data exercised here. -/
def getSafeText (e : Elem) (v : Option String) : String :=
  let text := textOf e v
  if sensitiveTest (fieldIdent e) then "[REDACTED]"
  else if isFormTag e.tagName then
    let identifier := formIdent e
    if jsTruthy v && !(strTrim (v.getD "") == "") then
      identifier ++ ": " ++
        (if 100 < (v.getD "").length then strTake (v.getD "") 77 ++ "..." else v.getD "")
    else identifier
  else if 100 < text.length then strTake text 97 ++ "..."
  else strTake (strTrim text) 200

/-- A crop rectangle, as the `area` objects `{x, y, width, height}`
passed to `cropScreenshotToArea`. -/
structure Area where
  x : Int
  y : Int
  width : Int
  height : Int
deriving Repr, DecidableEq

/-- The validation and clamping logic of `cropScreenshotToArea`
(`src/background.js` lines 242-352) as a function of the decoded
bitmap's dimensions `imgW × imgH`.  The first guard is the truthiness
check `!area.x || !area.y || !area.width || !area.height` (a JS number
is falsy exactly when it is `0`), the middle block is the clamping of
lines 266-293, and the final guard is the canvas-dimension check of
line 298 (its interpolated detail text is elided).  On success the
returned `Area` is the source rectangle handed to `drawImage` and the
`OffscreenCanvas` size. -/
def cropArea (imgW imgH : Int) (a : Area) : Except String Area :=
  if a.x = 0 ∨ a.y = 0 ∨ a.width = 0 ∨ a.height = 0 then
    Except.error "Invalid area coordinates provided for cropping"
  else
    let cx := max 0 (min a.x (imgW - 1))
    let cy := max 0 (min a.y (imgH - 1))
    let cw := max 1 (min a.width (imgW - max 0 a.x))
    let ch := max 1 (min a.height (imgH - max 0 a.y))
    let cw := if cx + cw > imgW then imgW - cx else cw
    let ch := if cy + ch > imgH then imgH - cy else ch
    let cw := max 1 cw
    let ch := max 1 ch
    if cw ≤ 0 ∨ ch ≤ 0 ∨ cw > 10000 ∨ ch > 10000 then
      Except.error "Invalid canvas dimensions"
    else Except.ok ⟨cx, cy, cw, ch⟩

/-- The default filter of the popup's `renderSteps`
(`src/unnamed/part_000` lines 202-209): drop `console`, `performance`,
`focus` and `blur` steps. -/
def popupBaseKeep (s : Step) : Bool :=
  !(s.type == "console") && !(s.type == "performance") &&
    !(s.metaAction == some "focus") && !(s.metaAction == some "blur")

/-- The list of steps the popup's `renderSteps` lays out, in the order it
lays them out (`src/unnamed/part_000` lines 202-242): the base filter,
then — only when a non-empty text filter is given — the text filter; the
surviving steps are mapped to step items in array order, with no sort. -/
def renderStepsList (steps : List Step) (filt : String) : List Step :=
  let fs := steps.filter popupBaseKeep
  if filt == "" then fs
  else
    fs.filter (fun s =>
      containsSubStr (strToLower s.url) (strToLower filt) ||
      containsSubStr (strToLower s.text) (strToLower filt) ||
      containsSubStr (strToLower s.selector) (strToLower filt) ||
      containsSubStr (strToLower (s.metaAction.getD "")) (strToLower filt))

/-- `generateRTFReport`'s `uiSteps` (`src/background.js` lines 961-965):
console and performance steps are filtered out; the rest keep array order. -/
def rtfUiSteps (steps : List Step) : List Step :=
  steps.filter (fun s => !(s.type == "console") && !(s.type == "performance"))

/-- `const action = step.meta?.action || step.type || 'action'`
(`src/background.js` line 1050). -/
def rtfActionOf (s : Step) : String :=
  jsOr (s.metaAction.getD "") (jsOr s.type "action")

/-- The steps that actually produce a numbered line in the RTF "Steps to
Reproduce" section (`src/background.js` lines 1049-1095): `uiSteps` in
array order, minus the `screenshot` case which `return`s early.  No sort
is applied anywhere in `generateRTFReport`. -/
def rtfListedSteps (steps : List Step) : List Step :=
  (rtfUiSteps steps).filter (fun s => !(rtfActionOf s == "screenshot"))

/-- The displayed timestamps are non-decreasing. -/
def chronological : List Step → Bool
  | [] => true
  | [_] => true
  | a :: b :: t => decide (a.time ≤ b.time) && chronological (b :: t)

/-! ### Concrete sample inputs used by witnesses and counterexamples -/

/-- A size function for logs whose serialization stays far below
`MAX_STORAGE_SIZE` (small steps, no screenshots). -/
def sz0 : List Step → Nat := fun _ => 0

/-- A codec environment; irrelevant for steps without a `dataURL`. -/
def env0 : CodecEnv := ⟨false, none, true, none, true⟩

/-- A click step at time 0. -/
def sOld : Step := ⟨0, "", "#a", "t", "step", some "click", some "v", none⟩

/-- The same click 50ms later — an exact near-simultaneous duplicate of
`sOld`. -/
def sNew : Step := ⟨50, "", "#a", "t", "step", some "click", some "v", none⟩

/-- A filler step that duplicates nothing below (distant time, distinct
selector). -/
def dummyStep : Step := ⟨1000000000, "", "#zz", "", "step", some "click", none, none⟩

/-- A full log of `MAX_STEPS` entries whose oldest entry is `sOld`. -/
def log1000 : List Step := sOld :: List.replicate 999 dummyStep

/-- A form-submission step at time 0. -/
def sSub : Step := ⟨0, "", "form#f", "Submit", "step", some "submit", some "x", none⟩

/-- The identical submission 50ms later. -/
def sSub2 : Step := ⟨50, "", "form#f", "Submit", "step", some "submit", some "x", none⟩

/-- The identical submission 500ms later (outside every dedup window). -/
def sSub3 : Step := ⟨500, "", "form#f", "Submit", "step", some "submit", some "x", none⟩

/-- A screenshot step at time 0, shaped as `src/background.js` lines
588-600 builds them: `type: 'screenshot'`, `meta.action: 'screenshot'`,
image data attached. -/
def sShot : Step :=
  ⟨0, "", "", "Screenshot captured", "screenshot", some "screenshot", none,
    some "data:image/png;base64,AAA"⟩

/-- The identical screenshot 50ms later. -/
def sShot2 : Step :=
  ⟨50, "", "", "Screenshot captured", "screenshot", some "screenshot", none,
    some "data:image/png;base64,AAA"⟩

/-- Pairwise non-duplicate click steps, 1000ms apart on the same target. -/
def fW : Nat → Step := fun i => ⟨1000 * (i : Int), "", "#s", "t", "step", some "click", none, none⟩

/-- A storage write that always fails with a quota-exceeded error. -/
def wqe : List Step → Except String Unit := fun _ => Except.error "QUOTA_EXCEEDED: write failed"

/-- A codec run in which decoding, context creation and encoding all
succeed but the final `FileReader` conversion fails. -/
def envRF : CodecEnv := ⟨false, some (10, 10), true, some "data:image/jpeg;base64,q", false⟩

/-- A sensitive input element (`name = "password"`). -/
def eP : Elem := ⟨"", "", "", "", "", "password", "", "", "password", "INPUT"⟩

/-- A non-sensitive input element (`name = "username"`). -/
def eU : Elem := ⟨"", "", "", "", "", "username", "", "", "text", "INPUT"⟩

/-- A click step recorded with timestamp 2000. -/
def sA : Step := ⟨2000, "https://example.com", "#a", "A", "step", some "click", none, none⟩

/-- A click step recorded with timestamp 1000, stored after `sA`. -/
def sB : Step := ⟨1000, "https://example.com", "#b", "B", "step", some "click", none, none⟩

/-! ### Helper lemmas -/

/-- The byte-size trim is the identity when the serialized size is within
budget (the loop guard fails immediately). -/
theorem trimToSize_eq_of_small (size : List Step → Nat) (l : List Step)
    (h : size l ≤ MAX_STORAGE_SIZE) : trimToSize size l = l := by
  unfold trimToSize
  cases hl : l.length with
  | zero => rfl
  | succ n =>
    unfold trimToSizeFuel
    rw [if_neg]
    rintro ⟨h1, -⟩
    exact absurd h1 (not_lt.mpr h)

/-- The byte-size trim never lengthens the log. -/
theorem trimToSizeFuel_length_le (size : List Step → Nat) :
    ∀ fuel l, (trimToSizeFuel size fuel l).length ≤ l.length := by
  intro fuel
  induction fuel with
  | zero => intro l; exact le_rfl
  | succ n ih =>
    intro l
    unfold trimToSizeFuel
    split
    · exact le_trans (ih _) (by simp [List.length_drop])
    · exact le_rfl

/-- The byte-size trim never lengthens the log. -/
theorem trimToSize_length_le (size : List Step → Nat) (l : List Step) :
    (trimToSize size l).length ≤ l.length :=
  trimToSizeFuel_length_le size l.length l

/-- The cap trim of `getStoredSteps` leaves at most `MAX_STEPS` entries. -/
theorem getStored_length_le (stored : List Step) :
    (getStoredStepsPure stored).length ≤ MAX_STEPS := by
  unfold getStoredStepsPure MAX_STEPS
  split
  · simp
    omega
  · omega

/-- The log `addStep` dedup-checks against has at most 999 entries. -/
theorem prepLog_length_le (stored : List Step) : (prepLog stored).length ≤ 999 := by
  have h := getStored_length_le stored
  unfold MAX_STEPS at h
  unfold prepLog MAX_STEPS
  split
  · simp
    omega
  · omega

/-- `getStoredStepsPure` only drops a prefix. -/
theorem getStored_sublist (stored : List Step) :
    List.Sublist (getStoredStepsPure stored) stored := by
  unfold getStoredStepsPure
  split
  · exact List.drop_sublist _ _
  · exact List.Sublist.refl _

/-- `prepLog` only drops entries, in place. -/
theorem prepLog_sublist (stored : List Step) : List.Sublist (prepLog stored) stored := by
  unfold prepLog
  split
  · exact (List.drop_sublist _ _).trans (getStored_sublist stored)
  · exact getStored_sublist stored

/-- The dedup callback, collapsed to its two positive rules: the `submit`
and `screenshot` branches and the fall-through all return `false`. -/
theorem isDupPair_eq_or (s n : Step) :
    isDupPair s n = (exactDup s n || rapidClickDup s n) := by
  unfold isDupPair
  cases h1 : exactDup s n <;> simp [h1]

/-- Against a new step whose action is not `click` — which covers every
`submit` step (`meta.action: 'submit'`) and every screenshot step the
source constructs (`meta.action` is `'screenshot'`, `'screenshot-custom'`
or absent: `src/background.js` lines 588-600 and 650-664,
`src/word-report-generator.js` lines 2049-2079) — only the 100ms
exact-duplicate rule can fire: the 25ms rule requires both actions to be
`'click'`. -/
theorem isDupPair_nonclick (s n : Step) (h : n.metaAction ≠ some "click") :
    isDupPair s n = exactDup s n := by
  rw [isDupPair_eq_or]
  have hr : rapidClickDup s n = false := by
    unfold rapidClickDup
    cases hm : s.metaAction with
    | none => simp
    | some a =>
      by_cases ha : a = "click"
      · subst ha
        cases hn : n.metaAction with
        | none => simp
        | some b =>
          have hb : ¬("click" = b) := by
            intro hh
            exact h (by rw [hn, hh])
          simp [hb]
      · simp [ha]
  rw [hr, Bool.or_false]

/-- The compression stanza of `addStep` only touches `dataURL`: every
dedup-relevant field of the stored step equals that of the incoming one. -/
theorem compressedStep_preserves (env : CodecEnv) (s : Step) :
    (compressedStep env s).time = s.time ∧
    (compressedStep env s).selector = s.selector ∧
    (compressedStep env s).text = s.text ∧
    (compressedStep env s).type = s.type ∧
    (compressedStep env s).metaAction = s.metaAction ∧
    (compressedStep env s).metaValue = s.metaValue := by
  unfold compressedStep
  cases hd : s.dataURL with
  | none => simp
  | some u =>
    cases hc : compressScreenshot env u with
    | ok c => simp [hc]
    | error e => simp [hc]

/-- The 100ms exact-duplicate rule does not read `dataURL`, so it is
indifferent to the compression of the incoming step. -/
theorem exactDup_compressed (env : CodecEnv) (s n : Step) :
    exactDup s (compressedStep env n) = exactDup s n := by
  obtain ⟨ht, hsel, htxt, -, hma, hmv⟩ := compressedStep_preserves env n
  unfold exactDup
  rw [ht, hsel, htxt, hma, hmv]

/-- `addStepResult`, rewritten through `prepLog` when the byte cap is
never hit; the stored step is the compressed incoming step. -/
theorem addStepResult_eq_general (size : List Step → Nat) (env : CodecEnv)
    (stored : List Step) (newStep : Step)
    (hsz : ∀ l, size l ≤ MAX_STORAGE_SIZE) :
    addStepResult size env stored newStep =
      if isDuplicate (prepLog stored) (compressedStep env newStep) then prepLog stored
      else prepLog stored ++ [compressedStep env newStep] := by
  have h0 : addStepResult size env stored newStep =
      (if isDuplicate (prepLog stored) (compressedStep env newStep) then
        trimToSize size (prepLog stored)
      else
        trimToSize size
          (if (prepLog stored ++ [compressedStep env newStep]).length > 1000 then
            (prepLog stored ++ [compressedStep env newStep]).drop
              ((prepLog stored ++ [compressedStep env newStep]).length - 1000)
          else prepLog stored ++ [compressedStep env newStep])) := rfl
  rw [h0]
  split
  · exact trimToSize_eq_of_small size _ (hsz _)
  · have hl : (prepLog stored ++ [compressedStep env newStep]).length ≤ 1000 := by
      have := prepLog_length_le stored
      simp
      omega
    rw [if_neg (by omega)]
    exact trimToSize_eq_of_small size _ (hsz _)

/-- `addStepResult`, rewritten through `prepLog` when the byte cap is
never hit and the new step carries no image. -/
theorem addStepResult_eq (size : List Step → Nat) (env : CodecEnv)
    (stored : List Step) (newStep : Step)
    (hsz : ∀ l, size l ≤ MAX_STORAGE_SIZE) (himg : newStep.dataURL = none) :
    addStepResult size env stored newStep =
      if isDuplicate (prepLog stored) newStep then prepLog stored
      else prepLog stored ++ [newStep] := by
  have hc : compressedStep env newStep = newStep := by
    unfold compressedStep
    rw [himg]
  have h0 : addStepResult size env stored newStep =
      (if isDuplicate (prepLog stored) (compressedStep env newStep) then
        trimToSize size (prepLog stored)
      else
        trimToSize size
          (if (prepLog stored ++ [compressedStep env newStep]).length > 1000 then
            (prepLog stored ++ [compressedStep env newStep]).drop
              ((prepLog stored ++ [compressedStep env newStep]).length - 1000)
          else prepLog stored ++ [compressedStep env newStep])) := rfl
  rw [h0, hc]
  split
  · exact trimToSize_eq_of_small size _ (hsz _)
  · have hl : (prepLog stored ++ [newStep]).length ≤ 1000 := by
      have := prepLog_length_le stored
      simp
      omega
    rw [if_neg (by omega)]
    exact trimToSize_eq_of_small size _ (hsz _)

/-! ### Claim theorems -/

/-- C10: for every data URL and every crop area with `x = 0` or `y = 0`,
`cropScreenshotToArea` rejects the request with the
'Invalid area coordinates' error, because the validity check tests the
coordinates for truthiness (`!area.x || !area.y || ...`) and the JS
number `0` is falsy — so a crop anchored at the image's left or top edge
always fails even when it is within bounds. -/
theorem cropArea_zero_xy_rejected (imgW imgH : Int) (a : Area)
    (h : a.x = 0 ∨ a.y = 0) :
    cropArea imgW imgH a = Except.error "Invalid area coordinates provided for cropping" := by
  unfold cropArea
  rcases h with h | h
  · rw [if_pos (Or.inl h)]
  · rw [if_pos (Or.inr (Or.inl h))]

/-- Witness for C10: the in-bounds area `(0, 10, 20, 20)` on a 100×100
image is rejected. -/
theorem cropArea_zero_xy_rejected_witness :
    cropArea 100 100 ⟨0, 10, 20, 20⟩ =
      Except.error "Invalid area coordinates provided for cropping" :=
  cropArea_zero_xy_rejected 100 100 ⟨0, 10, 20, 20⟩ (Or.inl rfl)

/-- Counterexample for C6: the claim says every degenerate rectangle
(zero or NEGATIVE width or height) is rejected with an explicit error.
The truthiness check only catches `0`: the negative width `-5` is truthy,
passes validation, and is silently clamped up to `1`, producing a 1×10
crop instead of an error. -/
theorem cropArea_negative_width_accepted :
    cropArea 100 100 ⟨5, 5, -5, 10⟩ = Except.ok ⟨5, 5, 1, 10⟩ := by rfl

/-- C6 as amended: zero-valued coordinates or extents are rejected with
the explicit 'Invalid area coordinates' error (negative extents are NOT —
they are clamped up to 1), and whenever the crop succeeds the produced
rectangle lies inside the source image bounds with positive extents. -/
theorem cropArea_clamp_bounds (imgW imgH : Int) (a : Area)
    (hW : 1 ≤ imgW) (hH : 1 ≤ imgH) :
    (a.x = 0 ∨ a.y = 0 ∨ a.width = 0 ∨ a.height = 0 →
      cropArea imgW imgH a = Except.error "Invalid area coordinates provided for cropping")
    ∧ (∀ c, cropArea imgW imgH a = Except.ok c →
        0 ≤ c.x ∧ 0 ≤ c.y ∧ 1 ≤ c.width ∧ 1 ≤ c.height ∧
        c.x + c.width ≤ imgW ∧ c.y + c.height ≤ imgH) := by
  constructor
  · intro h
    unfold cropArea
    rw [if_pos h]
  · intro c hc
    unfold cropArea at hc
    dsimp only at hc
    split_ifs at hc <;>
      (simp only [Except.ok.injEq] at hc
       subst hc
       refine ⟨?_, ?_, ?_, ?_, ?_, ?_⟩ <;> dsimp only <;> omega)

/-- Witness for C6 (amended): on a 100×100 image, a zero-x area is
rejected, and the oversized area `(50, 50, 200, 200)` succeeds clamped to
the in-bounds rectangle `(50, 50, 50, 50)`. -/
theorem cropArea_clamp_bounds_witness :
    cropArea 100 100 ⟨0, 5, 10, 10⟩ =
      Except.error "Invalid area coordinates provided for cropping" ∧
    (0 ≤ (50 : Int) ∧ 0 ≤ (50 : Int) ∧ 1 ≤ (50 : Int) ∧ 1 ≤ (50 : Int) ∧
      (50 : Int) + 50 ≤ 100 ∧ (50 : Int) + 50 ≤ 100) :=
  ⟨(cropArea_clamp_bounds 100 100 ⟨0, 5, 10, 10⟩ (by decide) (by decide)).1
      (Or.inl rfl),
    (cropArea_clamp_bounds 100 100 ⟨50, 50, 200, 200⟩ (by decide) (by decide)).2
      ⟨50, 50, 50, 50⟩ (by rfl)⟩

/-- Counterexample for C7: the claim says a codec failure never
propagates an error to the caller.  When decode, context creation and
encode succeed but the final `FileReader` conversion fails, the rejection
created inside `return new Promise(...)` escapes the enclosing
`try`/`catch` (an async `return promise` adopts the promise after the
`try` scope exits), so `compressScreenshot` rejects instead of returning
the original image. -/
theorem compressScreenshot_reader_failure_propagates :
    compressScreenshot envRF "u" =
      Except.error "Failed to convert compressed image to data URL" := by rfl

/-- C7 as amended: `compressScreenshot` returns the original image
unchanged when memory is high, when the estimated decoded size
(`length * 0.75`) exceeds the 50MB ceiling (skipped up front), and on a
failure of any codec step up to and including encoding; only a failure
of the final `FileReader` data-URL conversion escapes as an error to the
caller (`addStep` catches it and drops the image). -/
theorem compressScreenshot_identity_on_skip_and_codec_failure
    (env : CodecEnv) (url : String) :
    ((env.memHigh = true ∨ 3 * url.length > 4 * MAX_STORAGE_SIZE ∨
        env.decodeResult = none ∨ env.ctxOk = false ∨ env.encodeResult = none) →
      compressScreenshot env url = Except.ok url)
    ∧ (env.memHigh = false → 3 * url.length ≤ 4 * MAX_STORAGE_SIZE →
        env.decodeResult ≠ none → env.ctxOk = true → env.encodeResult ≠ none →
        env.readerOk = false →
        compressScreenshot env url =
          Except.error "Failed to convert compressed image to data URL") := by
  constructor
  · intro h
    unfold compressScreenshot
    by_cases hm : env.memHigh = true
    · rw [if_pos hm]
    · rw [if_neg hm]
      by_cases hs : 3 * url.length > 4 * MAX_STORAGE_SIZE
      · rw [if_pos hs]
      · rw [if_neg hs]
        rcases h with h | h | h | h | h
        · exact absurd h hm
        · exact absurd h hs
        · rw [h]
        · cases hd : env.decodeResult with
          | none => rfl
          | some d =>
            dsimp only
            rw [if_pos (by simp [h])]
        · cases hd : env.decodeResult with
          | none => rfl
          | some d =>
            dsimp only
            by_cases hc2 : (!env.ctxOk) = true
            · rw [if_pos hc2]
            · rw [if_neg hc2, h]
  · intro hm hsz hd hctx he hr
    unfold compressScreenshot
    rw [if_neg (by simp [hm]), if_neg (by omega)]
    cases hdr : env.decodeResult with
    | none => exact absurd hdr hd
    | some d =>
      dsimp only
      rw [if_neg (by simp [hctx])]
      cases her : env.encodeResult with
      | none => exact absurd her he
      | some s =>
        dsimp only
        rw [if_neg (by simp [hr])]

/-- Witness for C7 (amended): a high-memory environment passes the image
through unchanged, and the reader-failure environment surfaces the error. -/
theorem compressScreenshot_identity_witness :
    compressScreenshot ⟨true, none, true, none, true⟩ "abc" = Except.ok "abc" ∧
    compressScreenshot envRF "xyz" =
      Except.error "Failed to convert compressed image to data URL" :=
  ⟨(compressScreenshot_identity_on_skip_and_codec_failure ⟨true, none, true, none, true⟩ "abc").1
      (Or.inl rfl),
    (compressScreenshot_identity_on_skip_and_codec_failure envRF "xyz").2
      rfl (by decide) (by decide) rfl (by decide) rfl⟩

/-- Counterexample for C4: the claim says a quota-exceeded write failure
triggers exactly one remediation dropping a fraction of the oldest
entries (not the whole log) followed by one retry of the write.  In the
source, `storeSteps` issues a single `chrome.storage.local.set` (one
attempt, no retry) and its `catch` handler calls `clearSteps()`, wiping
the entire stored log. -/
theorem storeSteps_quota_no_retry_clears_all :
    (storeStepsExec sz0 wqe [sOld]).attempts.length = 1 ∧
    (storeStepsExec sz0 wqe [sOld]).removedAll = true := by decide

/-- C4 as amended: on a write failure whose message contains
`QUOTA_EXCEEDED`, the gateway makes no retry (exactly one write attempt),
clears the whole stored log via `clearSteps`, and surfaces
`{ ok: false, error }` to the caller (the failure is not silent). -/
theorem storeSteps_quota_behavior (size : List Step → Nat)
    (write : List Step → Except String Unit) (steps : List Step) (m : String)
    (hw : write (trimToSize size steps) = Except.error m)
    (hq : containsSubStr m "QUOTA_EXCEEDED" = true) :
    storeStepsExec size write steps =
      ⟨[trimToSize size steps], true, false, some m⟩ := by
  have h0 : storeStepsExec size write steps =
      (match write (trimToSize size steps) with
        | Except.ok _ => ⟨[trimToSize size steps], false, true, none⟩
        | Except.error m =>
          ⟨[trimToSize size steps], containsSubStr m "QUOTA_EXCEEDED", false, some m⟩) := rfl
  rw [h0, hw]
  dsimp only
  rw [hq]

/-- Witness for C4 (amended): the always-quota-failing write on the
one-step log yields one attempt, a full clear, and a surfaced error. -/
theorem storeSteps_quota_behavior_witness :
    storeStepsExec sz0 wqe [sOld] =
      ⟨[[sOld]], true, false, some "QUOTA_EXCEEDED: write failed"⟩ := by
  rw [storeSteps_quota_behavior sz0 wqe [sOld] "QUOTA_EXCEEDED: write failed" rfl (by decide)]
  decide

/-- Counterexample for C5: the claim says the output of the redaction
function never contains the raw value as a substring.  For the sensitive
field `password` and the raw value `"ACT"`, the output is the fixed
marker `"[REDACTED]"` — which contains `"ACT"` (`RED-ACT-ED`). -/
theorem getSafeText_sensitive_marker_contains_value :
    getSafeText eP (some "ACT") = "[REDACTED]" ∧
    containsSubStr (getSafeText eP (some "ACT")) "ACT" = true := by decide

/-- C5 as amended: for every field identifier matching the sensitive
pattern, `getSafeText` returns the fixed marker `"[REDACTED]"`
independently of the value, so its output never contains the raw value
unless the raw value happens to be a substring of the marker itself. -/
theorem getSafeText_sensitive_redacts (e : Elem) (v : Option String)
    (h : sensitiveTest (fieldIdent e) = true) :
    getSafeText e v = "[REDACTED]" ∧
    (containsSubStr "[REDACTED]" (v.getD "") = false →
      containsSubStr (getSafeText e v) (v.getD "") = false) := by
  have h1 : getSafeText e v = "[REDACTED]" := by
    unfold getSafeText
    dsimp only
    rw [if_pos h]
  exact ⟨h1, fun hc => by rw [h1]; exact hc⟩

/-- Witness for C5 (amended): the password field with value `"hunter2"`
yields the bare marker, which does not contain the value. -/
theorem getSafeText_sensitive_redacts_witness :
    getSafeText eP (some "hunter2") = "[REDACTED]" ∧
    containsSubStr (getSafeText eP (some "hunter2")) "hunter2" = false := by
  have h := getSafeText_sensitive_redacts eP (some "hunter2") (by decide)
  exact ⟨h.1, h.2 (by decide)⟩

/-- Counterexample for C8: the claim says the redaction function trims
surrounding whitespace of the value.  For the non-sensitive field
`username` with value `"  hi  "`, `getSafeText` embeds the value
untrimmed (`"username:   hi  "`), so the output is not equal to its own
trimmed form. -/
theorem getSafeText_nonsensitive_keeps_whitespace :
    sensitiveTest (fieldIdent eU) = false ∧
    strTrim (getSafeText eU (some "  hi  ")) ≠ getSafeText eU (some "  hi  ") := by decide

/-- C8 as amended: for non-sensitive identifiers, over-long values are
truncated with an ellipsis (at 100 characters, keeping a 77-character
prefix for form-element values and a 97-character prefix for other
element text), but surrounding whitespace is trimmed only for non-form
text of at most 100 characters: form-element values are embedded
untrimmed after the field identifier. -/
theorem getSafeText_nonsensitive_truncation (e : Elem) (v : String)
    (hs : sensitiveTest (fieldIdent e) = false) :
    (isFormTag e.tagName = true → (v == "") = false → (strTrim v == "") = false →
      getSafeText e (some v) =
        formIdent e ++ ": " ++ (if 100 < v.length then strTake v 77 ++ "..." else v))
    ∧ (isFormTag e.tagName = false → 100 < (textOf e (some v)).length →
      getSafeText e (some v) = strTake (textOf e (some v)) 97 ++ "...")
    ∧ (isFormTag e.tagName = false → (textOf e (some v)).length ≤ 100 →
      getSafeText e (some v) = strTake (strTrim (textOf e (some v))) 200) := by
  refine ⟨fun hf hv ht => ?_, fun hf hlen => ?_, fun hf hlen => ?_⟩
  · unfold getSafeText
    dsimp only
    rw [if_neg (by simp [hs]), if_pos hf,
      if_pos (show (jsTruthy (some v) && !(strTrim ((some v).getD "") == "")) = true by
        simp [jsTruthy, hv, ht])]
    rfl
  · unfold getSafeText
    dsimp only
    rw [if_neg (by simp [hs]), if_neg (by simp [hf]), if_pos hlen]
  · unfold getSafeText
    dsimp only
    rw [if_neg (by simp [hs]), if_neg (by simp [hf]), if_neg (by omega)]

/-- Witness for C8 (amended): the `username` input with value
`"  hi  "` renders as the identifier plus the untrimmed value. -/
theorem getSafeText_nonsensitive_truncation_witness :
    getSafeText eU (some "  hi  ") = "username:   hi  " := by
  rw [(getSafeText_nonsensitive_truncation eU "  hi  " (by decide)).1
    (by decide) (by decide) (by decide)]
  decide

/-- Counterexample for C9: the claim says every human-facing rendering
orders the displayed steps by explicitly sorting on their timestamps at
render time.  For the stored log `[sA, sB]` (timestamps 2000 then 1000)
both the popup step view and the RTF "Steps to Reproduce" list display
the steps in storage order, which is not chronological. -/
theorem render_not_time_sorted :
    chronological (renderStepsList [sA, sB] "") = false ∧
    chronological (rtfListedSteps [sA, sB]) = false := by decide

/-- C9 as amended: both renderers display a filtered subsequence of the
stored log in storage order — no sort on timestamps is performed, so the
display is chronological only when the stored array already is. -/
theorem render_preserves_storage_order (steps : List Step) (filt : String) :
    List.Sublist (renderStepsList steps filt) steps ∧
    List.Sublist (rtfListedSteps steps) steps := by
  constructor
  · unfold renderStepsList
    dsimp only
    split
    · exact List.filter_sublist _
    · exact (List.filter_sublist _).trans (List.filter_sublist _)
  · unfold rtfListedSteps rtfUiSteps
    exact (List.filter_sublist _).trans (List.filter_sublist _)

/-- Counterexample for C2: the claim says a `submit` step is never
suppressed regardless of its proximity to existing steps.  The dedup
callback checks its 100ms exact-duplicate rule before the submit
exemption branch, so the identical submission `sSub2`, 50ms after
`sSub`, is suppressed: it is absent from the log `addStep` stores. -/
theorem submit_step_suppressed :
    sSub2.metaAction = some "submit" ∧
    sSub2 ∉ addStepResult sz0 env0 [sSub] sSub2 := by decide

/-- C2 as amended: `submit` steps and `screenshot` steps (which the
source always builds with a non-`click` action) bypass the 25ms
rapid-click rule, and the dedicated submit/screenshot branches of the
dedup callback are unreachable — but both remain subject to the 100ms
exact-duplicate rule: such a step is suppressed iff an existing retained
step matches it on selector, text, action and metadata value within
100ms, and is stored (after image compression) otherwise. -/
theorem addStep_submit_screenshot_dedup (size : List Step → Nat) (env : CodecEnv)
    (stored : List Step) (newStep : Step)
    (hsz : ∀ l, size l ≤ MAX_STORAGE_SIZE)
    (hkind : newStep.metaAction = some "submit" ∨
      (newStep.type = "screenshot" ∧ newStep.metaAction ≠ some "click")) :
    addStepResult size env stored newStep =
      if (prepLog stored).any (fun s => exactDup s newStep) then prepLog stored
      else prepLog stored ++ [compressedStep env newStep] := by
  rw [addStepResult_eq_general size env stored newStep hsz]
  have hna : (compressedStep env newStep).metaAction ≠ some "click" := by
    rw [(compressedStep_preserves env newStep).2.2.2.2.1]
    rcases hkind with h | h
    · rw [h]
      decide
    · exact h.2
  have hswap : isDuplicate (prepLog stored) (compressedStep env newStep) =
      (prepLog stored).any (fun s => exactDup s newStep) := by
    unfold isDuplicate
    simp only [show ∀ s, isDupPair s (compressedStep env newStep) = exactDup s newStep from
      fun s => by rw [isDupPair_nonclick s _ hna, exactDup_compressed env s newStep]]
  rw [hswap]

/-- Witness for C2 (amended), exercising both kinds: the identical
submission 500ms later is outside the 100ms window and is appended, and
the identical screenshot 50ms later is inside it and is suppressed. -/
theorem addStep_submit_screenshot_dedup_witness :
    addStepResult sz0 env0 [sSub] sSub3 = [sSub, sSub3] ∧
    addStepResult sz0 env0 [sShot] sShot2 = [sShot] := by
  constructor
  · rw [addStep_submit_screenshot_dedup sz0 env0 [sSub] sSub3 (fun _ => Nat.zero_le _)
      (Or.inl rfl)]
    decide
  · rw [addStep_submit_screenshot_dedup sz0 env0 [sShot] sShot2 (fun _ => Nat.zero_le _)
      (Or.inr ⟨rfl, by decide⟩)]
    decide

/-- Counterexample for C1: the claim states suppression happens iff some
step already in the (existing) log matches one of the two dedup rules.
On a log already at the 1000-step cap whose only matching entry is the
oldest one, `addStep` first `shift()`s that oldest entry out and only
then runs the duplicate scan, so the new step is stored even though the
existing log contained a match — the stated iff fails. -/
theorem addStep_dedup_iff_fails_at_cap :
    ¬ ((sNew ∉ addStepResult sz0 env0 log1000 sNew) ↔
        isDuplicate log1000 sNew = true) := by
  have hAny : isDuplicate log1000 sNew = true := by
    unfold isDuplicate log1000
    rw [List.any_cons]
    rw [show isDupPair sOld sNew = true from by decide]
    rfl
  have hlen : log1000.length = 1000 := by
    unfold log1000
    rw [List.length_cons, List.length_replicate]
  have hp : prepLog log1000 = List.replicate 999 dummyStep := by
    have hg : getStoredStepsPure log1000 = log1000 := by
      unfold getStoredStepsPure
      rw [if_neg (by rw [hlen]; unfold MAX_STEPS; omega)]
    unfold prepLog
    rw [hg, if_pos (by rw [hlen]; unfold MAX_STEPS; omega)]
    unfold log1000
    rw [List.drop_succ_cons, List.drop_zero]
  have hres : addStepResult sz0 env0 log1000 sNew =
      List.replicate 999 dummyStep ++ [sNew] := by
    rw [addStepResult_eq sz0 env0 log1000 sNew (fun _ => Nat.zero_le _) rfl, hp]
    have hd : isDuplicate (List.replicate 999 dummyStep) sNew = false := by
      unfold isDuplicate
      rw [List.any_replicate]
      rw [show isDupPair dummyStep sNew = false from by decide]
      rw [ite_self]
    rw [hd]
    rw [if_neg Bool.false_ne_true]
  intro hiff
  exact (hiff.mpr hAny)
    (by rw [hres]; exact List.mem_append_right _ (List.mem_singleton.mpr rfl))

/-- C1 as amended: a new step is suppressed iff some step among those
retained after the pre-append cap handling (the log is first truncated
to its most recent 1000 entries, and when 1000 remain the oldest is
evicted) satisfies the 100ms exact-duplicate rule or the 25ms
rapid-click rule — i.e. iff `isDuplicate (prepLog stored)` holds. -/
theorem addStep_suppressed_iff (size : List Step → Nat) (env : CodecEnv)
    (stored : List Step) (newStep : Step)
    (hsz : ∀ l, size l ≤ MAX_STORAGE_SIZE) (himg : newStep.dataURL = none)
    (hfresh : newStep ∉ stored) :
    (newStep ∉ addStepResult size env stored newStep) ↔
      isDuplicate (prepLog stored) newStep = true := by
  rw [addStepResult_eq size env stored newStep hsz himg]
  cases hdup : isDuplicate (prepLog stored) newStep with
  | false =>
    simp
  | true =>
    rw [if_pos rfl]
    constructor
    · intro _
      rfl
    · intro _ hm
      exact hfresh ((prepLog_sublist stored).subset hm)

/-- Witness for C1 (amended): on the one-step log `[sOld]`, the exact
duplicate `sNew` 50ms later is suppressed. -/
theorem addStep_suppressed_iff_witness :
    sNew ∉ addStepResult sz0 env0 [sOld] sNew :=
  (addStep_suppressed_iff sz0 env0 [sOld] sNew (fun _ => Nat.zero_le _) rfl
    (by decide)).mpr (by decide)

/-- The post-push `splice` cap of `addStep` leaves at most 1000 entries. -/
theorem spliceCap_length_le (l : List Step) :
    (if l.length > 1000 then l.drop (l.length - 1000) else l).length ≤ 1000 := by
  split
  · rw [List.length_drop]
    omega
  · omega

/-- Appending pairwise non-duplicate, image-free steps `f 1 .. f k` to an
empty log (with the byte cap never hit) stores them all, in order, as
long as `k` stays within the 1000-step cap. -/
theorem appendAll_eq (size : List Step → Nat) (env : CodecEnv) (f : Nat → Step)
    (hsz : ∀ l, size l ≤ MAX_STORAGE_SIZE)
    (himg : ∀ i, (f i).dataURL = none)
    (hnd : ∀ i j, i ≠ j → isDupPair (f i) (f j) = false) :
    ∀ k, k ≤ 1000 → appendAll size env f k = (List.range k).map (fun i => f (i + 1)) := by
  intro k
  induction k with
  | zero => intro _; rfl
  | succ n ih =>
    intro hk
    have hacc := ih (by omega)
    show addStepResult size env (appendAll size env f n) (f (n + 1)) = _
    rw [hacc, addStepResult_eq size env _ _ hsz (himg (n + 1))]
    have hlen : ((List.range n).map (fun i => f (i + 1))).length = n := by
      rw [List.length_map, List.length_range]
    have hg : getStoredStepsPure ((List.range n).map (fun i => f (i + 1))) =
        (List.range n).map (fun i => f (i + 1)) := by
      unfold getStoredStepsPure
      rw [if_neg (by rw [hlen]; unfold MAX_STEPS; omega)]
    have hprep : prepLog ((List.range n).map (fun i => f (i + 1))) =
        (List.range n).map (fun i => f (i + 1)) := by
      unfold prepLog
      rw [hg, if_neg (by rw [hlen]; unfold MAX_STEPS; omega)]
    rw [hprep]
    have hdup : isDuplicate ((List.range n).map (fun i => f (i + 1))) (f (n + 1)) = false := by
      unfold isDuplicate
      rw [List.any_eq_false]
      intro x hx
      rw [List.mem_map] at hx
      obtain ⟨i, hi, rfl⟩ := hx
      rw [List.mem_range] at hi
      rw [hnd (i + 1) (n + 1) (by omega)]
      exact Bool.false_ne_true
    rw [hdup, if_neg Bool.false_ne_true]
    rw [List.range_succ, List.map_append]
    rfl

/-- C3: after every append the stored log has at most `MAX_STEPS = 1000`
entries (for every byte-size function and codec environment), and the
end-to-end scenario: appending 1001 pairwise non-duplicate steps
`f 1 .. f 1001` sequentially to the empty log yields exactly the 1000
steps `f 2 .. f 1001` in insertion order — the oldest entry was evicted
first. -/
theorem addStep_retention :
    (∀ (size : List Step → Nat) (env : CodecEnv) (stored : List Step) (newStep : Step),
      (addStepResult size env stored newStep).length ≤ MAX_STEPS)
    ∧ (∀ (size : List Step → Nat) (env : CodecEnv) (f : Nat → Step),
      (∀ l, size l ≤ MAX_STORAGE_SIZE) → (∀ i, (f i).dataURL = none) →
      (∀ i j, i ≠ j → isDupPair (f i) (f j) = false) →
      appendAll size env f 1001 = (List.range 1000).map (fun i => f (i + 2))) := by
  constructor
  · intro size env stored newStep
    have h0 : addStepResult size env stored newStep =
        (if isDuplicate (prepLog stored) (compressedStep env newStep) then
          trimToSize size (prepLog stored)
        else
          trimToSize size
            (if (prepLog stored ++ [compressedStep env newStep]).length > 1000 then
              (prepLog stored ++ [compressedStep env newStep]).drop
                ((prepLog stored ++ [compressedStep env newStep]).length - 1000)
            else prepLog stored ++ [compressedStep env newStep])) := rfl
    rw [h0]
    have hp := prepLog_length_le stored
    unfold MAX_STEPS
    split
    · have := trimToSize_length_le size (prepLog stored)
      omega
    · have hsp := spliceCap_length_le (prepLog stored ++ [compressedStep env newStep])
      have htr := trimToSize_length_le size
        (if (prepLog stored ++ [compressedStep env newStep]).length > 1000 then
          (prepLog stored ++ [compressedStep env newStep]).drop
            ((prepLog stored ++ [compressedStep env newStep]).length - 1000)
        else prepLog stored ++ [compressedStep env newStep])
      omega
  · intro size env f hsz himg hnd
    have hall := appendAll_eq size env f hsz himg hnd 1000 (by omega)
    have h1 : appendAll size env f 1001 =
        addStepResult size env (appendAll size env f 1000) (f 1001) := rfl
    rw [h1, hall, addStepResult_eq size env _ _ hsz (himg 1001)]
    have hlen : ((List.range 1000).map (fun i => f (i + 1))).length = 1000 := by
      rw [List.length_map, List.length_range]
    have hg : getStoredStepsPure ((List.range 1000).map (fun i => f (i + 1))) =
        (List.range 1000).map (fun i => f (i + 1)) := by
      unfold getStoredStepsPure
      rw [if_neg (by rw [hlen]; unfold MAX_STEPS; omega)]
    have hdrop : ((List.range 1000).map (fun i => f (i + 1))).drop 1 =
        (List.range 999).map (fun i => f (i + 2)) := by
      rw [show (1000 : Nat) = 999 + 1 from rfl, List.range_succ_eq_map]
      rw [List.map_cons, List.drop_succ_cons, List.drop_zero, List.map_map]
      rfl
    have hprep : prepLog ((List.range 1000).map (fun i => f (i + 1))) =
        (List.range 999).map (fun i => f (i + 2)) := by
      unfold prepLog
      rw [hg, if_pos (by rw [hlen]; unfold MAX_STEPS; omega), hdrop]
    rw [hprep]
    have hdup : isDuplicate ((List.range 999).map (fun i => f (i + 2))) (f 1001) = false := by
      unfold isDuplicate
      rw [List.any_eq_false]
      intro x hx
      rw [List.mem_map] at hx
      obtain ⟨i, hi, rfl⟩ := hx
      rw [List.mem_range] at hi
      rw [hnd (i + 2) 1001 (by omega)]
      exact Bool.false_ne_true
    rw [hdup, if_neg Bool.false_ne_true]
    conv_rhs => rw [show (1000 : Nat) = 999 + 1 from rfl, List.range_succ, List.map_append]
    simp only [List.map_cons, List.map_nil]

/-- The concrete step family `fW` (clicks 1000ms apart) is pairwise
non-duplicate under both dedup rules. -/
theorem fW_pairwise (i j : Nat) (h : i ≠ j) : isDupPair (fW i) (fW j) = false := by
  rw [isDupPair_eq_or]
  have h100 : ¬((1000 * (i : Int) - 1000 * (j : Int)).natAbs ≤ 100) := by omega
  have h25 : ¬((1000 * (i : Int) - 1000 * (j : Int)).natAbs ≤ 25) := by omega
  have he : exactDup (fW i) (fW j) = false := by
    unfold exactDup fW
    dsimp only
    rw [decide_eq_false h100]
    simp only [Bool.false_and]
  have hr : rapidClickDup (fW i) (fW j) = false := by
    unfold rapidClickDup fW
    dsimp only
    rw [decide_eq_false h25]
    simp only [Bool.false_and]
  rw [he, hr]
  rfl

/-- Witness for C3: the concrete family `fW` satisfies all three
hypotheses, and its 1001 appends retain exactly steps 2..1001. -/
theorem addStep_retention_witness :
    appendAll sz0 env0 fW 1001 = (List.range 1000).map (fun i => fW (i + 2)) :=
  addStep_retention.2 sz0 env0 fW (fun _ => Nat.zero_le _) (fun _ => rfl)
    (fun i j h => fW_pairwise i j h)
